import Mathlib

/-!
Shallow embedding of `src/mae_boxplots.py` (AFDGCN_Garnoldi repository).

The script reads CSV files of "Validation MAE" measurements, concatenates
them into per-basis tables tagged by category, computes per-category means,
and writes three boxplot figures per active basis.  We model:

  * a CSV table as a list of rows; each row carries its "Validation MAE"
    value (as a rational) and an association list of tag columns added by
    the script (`df["Filter"] = ...`, `df["Model"] = ...`, ...);
  * the filesystem as a function from paths to optional tables
    (`os.path.exists` = `isSome`, `pd.read_csv` = the payload);
  * each of the three plotting passes as a pure function from the
    filesystem to the combined table (and output path) it renders;
  * Python's fixed two-decimal float formatting (`f"{v:.2f}"`) over the
    rationals, with round-half-to-even, and the script's `format_val`.
-/

namespace MaeBoxplots

/-- One record of a measurement table: the numeric "Validation MAE" field
plus the categorical tag columns assigned by the script.  A tag assignment
(`df["X"] = v`) replaces any existing "X" column, which we model by removing
existing entries for that name and appending the new one. -/
structure Row where
  mae : ℚ
  tags : List (String × String)
deriving Repr, DecidableEq

/-- A table (pandas DataFrame) is an ordered list of rows. -/
abbrev Table := List Row

/-- The filesystem: a path either holds a CSV table or does not exist. -/
abbrev FS := String → Option Table

/-- Model of `df["name"] = val` on one row: drop any existing column of that name,
then append the new column value. -/
def setTag (name val : String) (r : Row) : Row :=
  { r with tags := r.tags.filter (fun p => p.1 ≠ name) ++ [(name, val)] }

/-- Model of `df["name"] = val` on a whole table. -/
def tagTable (name val : String) (t : Table) : Table :=
  t.map (setTag name val)

/-- Read a row's tag column, if present. -/
def getTag (name : String) (r : Row) : Option String :=
  (r.tags.find? (fun p => p.1 = name)).map (·.2)

/-- Model of `df[df["name"] == val]`: the rows of `t` whose `name` tag equals `val`. -/
def rowsWithTag (name val : String) (t : Table) : Table :=
  t.filter (fun r => getTag name r = some val)

/-- Model of `df["Validation MAE"].mean()`: arithmetic mean of the column. -/
def colMean (t : Table) : ℚ :=
  (t.map Row.mae).sum / (t.length : ℚ)

/-! ## Static configuration (source lines 8–22) -/

/-- The `bases_config` table: basis name ↦ (active flag, display name). -/
def bases_config : List (String × Bool × String) :=
  [ ("Monomial",   (false, "Monomial")),
    ("Chebyshev",  (true,  "Chebyshev")),
    ("Legendre",   (true,  "Legendre")),
    ("Jacobi",     (false, "Jacobi")),
    ("PPR",        (false, "PPR")),
    ("SChebyshev", (false, "Scaled Chebyshev")) ]

/-- The `active_bases` list: names of the bases whose active flag is set. -/
def active_bases : List String :=
  (bases_config.filter (fun t => t.2.1)).map (·.1)

/-- Lookup of `bases_config[basis]["display_name"]`. -/
def displayName (basis : String) : String :=
  match bases_config.find? (fun t => t.1 = basis) with
  | some t => t.2.2
  | none => basis

/-- Python's `str.lower()` on one character (ASCII range, which covers every
basis name in `bases_config`). -/
def lowerChar (c : Char) : Char :=
  if 'A' ≤ c ∧ c ≤ 'Z' then Char.ofNat (c.toNat + 32) else c

/-- Python's `basis.lower()`. -/
def lowerStr (s : String) : String := ⟨s.data.map lowerChar⟩

def drive_base : String := "/content/drive/MyDrive/mae_files"

def filters : List String := ["g0", "g1", "g2", "g3"]

def models : List String := ["APPNP", "AFDGCN", "GPRGNN"]

/-! ## File resolution (source lines 30–36, 72–82, 124–126, 143–145) -/

/-- Model of `os.path.join` for the relative components used by the script. -/
def pathJoin (a b : String) : String := a ++ "/" ++ b

/-- The `folder_path = os.path.join(drive_base, basis.lower())` value. -/
def folder_path (basis : String) : String :=
  pathJoin drive_base (lowerStr basis)

/-- Path of a Garnoldi filter file:
`<folder>/mae_values_garnoldi_<basis_lower>_<filt>.csv`. -/
def garnoldiPath (basis filt : String) : String :=
  pathJoin (folder_path basis)
    ("mae_values_garnoldi_" ++ lowerStr basis ++ "_" ++ filt ++ ".csv")

/-- Path of a comparison-model file:
`<folder>/mae_values_<model_lower>_<basis_lower>.csv`. -/
def modelPath (basis model : String) : String :=
  pathJoin (folder_path basis)
    ("mae_values_" ++ lowerStr model ++ "_" ++ lowerStr basis ++ ".csv")

/-! ## Numeric formatting (source lines 24–25, 57, 104, 162)

Python's `f"{v:.2f}"` rounds to two decimals with ties to even.  We model
the value as an exact rational. -/

/-- Round a rational to the nearest integer, ties to even. -/
def roundHalfEven (q : ℚ) : ℤ :=
  let n := Rat.floor q
  let f := q - (n : ℚ)
  if f < 1/2 then n
  else if (1:ℚ)/2 < f then n + 1
  else if n % 2 = 0 then n else n + 1

/-- Two-decimal digits of a nonnegative integer number of hundredths. -/
def centsToString (c : ℕ) : String :=
  toString (c / 100) ++ "." ++
    (if c % 100 < 10 then "0" else "") ++ toString (c % 100)

/-- Model of `f"{q:.2f}"`: fixed-point formatting with two decimals. -/
def fmt2 (q : ℚ) : String :=
  let c := roundHalfEven (q * 100)
  if c < 0 then "-" ++ centsToString (-c).toNat else centsToString c.toNat

/-- The `format_val` function (source lines 24–25): values ≥ 1000 are shown in thousands
with a "K" suffix, others as plain two-decimal numbers. -/
def format_val (val : ℚ) : String :=
  if val ≥ 1000 then fmt2 (val / 1000) ++ "K" else fmt2 val

/-- The annotation text of Plots 1 and 3 (`f"{mean_val:.2f}"`,
source lines 57 and 162). -/
def annotPlain (meanVal : ℚ) : String := fmt2 meanVal

/-! ## Plot 1: Garnoldi filter boxplots (source lines 28–63)

The loop `for filt in filters: ... df_garnoldi = pd.concat([df_garnoldi, df])`
appends each present file's rows, tagged with `df["Filter"] = filt` and
`df["Basis"] = basis_display`, in enumeration order.  We render the loop as
left-to-right concatenation over the filter list. -/

/-- Rows contributed to Plot 1's `df_garnoldi` by the given filter list. -/
def plot1Rows (fs : FS) (basis : String) : List String → Table
  | [] => []
  | filt :: rest =>
    (match fs (garnoldiPath basis filt) with
     | some df => tagTable "Basis" (displayName basis)
         (tagTable "Filter" filt df)
     | none => []) ++ plot1Rows fs basis rest

/-- Plot 1's combined table `df_garnoldi` for one basis. -/
def plot1Table (fs : FS) (basis : String) : Table :=
  plot1Rows fs basis filters

/-- Plot 1 output path (source line 58). -/
def plot1Path (basis : String) : String :=
  "figures/" ++ lowerStr basis ++ "/garnoldi_filter_boxplot_" ++
    lowerStr basis ++ ".png"

/-- Plot 1 for one basis: the figure written (path and the data behind it),
or `none` when `df_garnoldi` is empty. -/
def plot1Out (fs : FS) (basis : String) : Option (String × Table) :=
  let t := plot1Table fs basis
  if t.isEmpty then none else some (plot1Path basis, t)

/-! ## Plot 2: full model comparison (source lines 66–114) -/

/-- Rows contributed to Plot 2's `df_all` by the Garnoldi filter files,
tagged `df["Model"] = f"Garnoldi-{filt}"`. -/
def plot2GarnRows (fs : FS) (basis : String) : List String → Table
  | [] => []
  | filt :: rest =>
    (match fs (garnoldiPath basis filt) with
     | some df => tagTable "Model" ("Garnoldi-" ++ filt) df
     | none => []) ++ plot2GarnRows fs basis rest

/-- Rows contributed by the comparison-model files (`APPNP`, `AFDGCN`,
`GPRGNN`), tagged `df["Model"] = model`; shared by Plots 2 and 3. -/
def modelRows (fs : FS) (basis : String) : List String → Table
  | [] => []
  | m :: rest =>
    (match fs (modelPath basis m) with
     | some df => tagTable "Model" m df
     | none => []) ++ modelRows fs basis rest

/-- Plot 2's combined table `df_all` for one basis. -/
def plot2Table (fs : FS) (basis : String) : Table :=
  plot2GarnRows fs basis filters ++ modelRows fs basis models

/-- Plot 2 output path (source line 109): note the `_cleaned` suffix comes
after the basis name. -/
def plot2Path (basis : String) : String :=
  "figures/" ++ lowerStr basis ++ "/all_models_comparison_" ++
    lowerStr basis ++ "_cleaned.png"

/-- Plot 2 for one basis. -/
def plot2Out (fs : FS) (basis : String) : Option (String × Table) :=
  let t := plot2Table fs basis
  if t.isEmpty then none else some (plot2Path basis, t)

/-! ## Plot 3: best Garnoldi filter vs models (source lines 117–168) -/

/-- The `filter_mae_means` dictionary over a filter list: one entry per
existing file, keyed by filter, in insertion (enumeration) order. -/
def meansRows (fs : FS) (basis : String) : List String → List (String × ℚ)
  | [] => []
  | filt :: rest =>
    (match fs (garnoldiPath basis filt) with
     | some df => [(filt, colMean df)]
     | none => []) ++ meansRows fs basis rest

/-- The `filter_mae_means` dictionary for one basis (source lines 123–129). -/
def filter_mae_means (fs : FS) (basis : String) : List (String × ℚ) :=
  meansRows fs basis filters

/-- Model of `min(ks, key=get)` over the tail: keep the current key unless a later
value is strictly smaller (Python's `min` keeps the first on ties). -/
def minKeyAux (k : String) (v : ℚ) : List (String × ℚ) → String
  | [] => k
  | (k2, v2) :: rest =>
    if v2 < v then minKeyAux k2 v2 rest else minKeyAux k v rest

/-- Model of `min(filter_mae_means, key=filter_mae_means.get)` (source line 136):
the first key attaining the minimum value, `none` on the empty dict. -/
def minKey : List (String × ℚ) → Option String
  | [] => none
  | (k, v) :: rest => some (minKeyAux k v rest)

/-- Outcome of the body of Plot 3's loop for one basis. -/
inductive Plot3Step where
  /-- `filter_mae_means` was empty: print the notice and `continue`. -/
  | skipped : Plot3Step
  /-- The unguarded `pd.read_csv(best_path)` would raise: the selected
  filter's file does not exist.  (Proved unreachable below.) -/
  | readError : Plot3Step
  /-- The combined table `df_all` that reaches the rendering guard. -/
  | built : Table → Plot3Step
deriving Repr, DecidableEq

/-- Plot 3's aggregation for one basis (source lines 123–149). -/
def plot3Step (fs : FS) (basis : String) : Plot3Step :=
  match minKey (filter_mae_means fs basis) with
  | none => Plot3Step.skipped
  | some best =>
    match fs (garnoldiPath basis best) with
    | none => Plot3Step.readError
    | some df_best =>
      Plot3Step.built
        (tagTable "Model" ("Garnoldi-" ++ best) df_best ++
          modelRows fs basis models)

/-- Plot 3 output path (source line 163). -/
def plot3Path (basis : String) : String :=
  "figures/" ++ lowerStr basis ++ "/best_garnoldi_vs_models_" ++
    lowerStr basis ++ ".png"

/-- Plot 3 for one basis: the figure written, or `none` when the basis was
skipped or the table empty. -/
def plot3Out (fs : FS) (basis : String) : Option (String × Table) :=
  match plot3Step fs basis with
  | Plot3Step.built t =>
    if t.isEmpty then none else some (plot3Path basis, t)
  | _ => none

/-! ## The whole script -/

/-- The figures one pass writes, over a list of bases in order. -/
def passOutputs (out : FS → String → Option (String × Table)) (fs : FS) :
    List String → List (String × Table)
  | [] => []
  | b :: rest =>
    (match out fs b with
     | some o => [o]
     | none => []) ++ passOutputs out fs rest

/-- All figures the script writes: the three passes in source order, each
over the active bases. -/
def run (fs : FS) : List (String × Table) :=
  passOutputs plot1Out fs active_bases ++
    passOutputs plot2Out fs active_bases ++
    passOutputs plot3Out fs active_bases

/-- The mean annotated for category `val` of the `Model` column
(source lines 101–102 and 160–161). -/
def annotatedMean (t : Table) (val : String) : ℚ :=
  colMean (rowsWithTag "Model" val t)

/-- How many tag columns named `n` a row carries. -/
def countTag (n : String) (r : Row) : ℕ :=
  r.tags.countP (fun p => p.1 = n)

/-! ## Lemmas about tag columns -/

theorem find_filter_ne_append (n : String) (v : String)
    (l : List (String × String)) :
    ((l.filter (fun p => p.1 ≠ n)) ++ [(n, v)]).find?
      (fun p => p.1 = n) = some (n, v) := by
  rw [List.find?_append]
  have h1 : (l.filter (fun p => p.1 ≠ n)).find? (fun p => p.1 = n) = none := by
    rw [List.find?_eq_none]
    intro p hp
    have := List.of_mem_filter hp
    simpa using this
  rw [h1]
  simp [List.find?]

theorem getTag_setTag_same (n v : String) (r : Row) :
    getTag n (setTag n v r) = some v := by
  simp only [getTag, setTag]
  rw [find_filter_ne_append]
  rfl

theorem tag_predicate_absorb (n n' : String) (h : n ≠ n') :
    (fun p : String × String =>
        (decide (p.1 ≠ n') && decide (p.1 = n))) =
      (fun p : String × String => decide (p.1 = n)) := by
  funext p
  by_cases hp : p.1 = n
  · simp [hp, h]
  · simp [hp]

theorem find_filter_ne (n n' : String) (h : n ≠ n')
    (l : List (String × String)) :
    (l.filter (fun p => p.1 ≠ n')).find? (fun p => p.1 = n) =
      l.find? (fun p => p.1 = n) := by
  rw [List.find?_filter]
  simp only [decide_eq_true_eq, Bool.decide_and]
  rw [show (fun a : String × String =>
      (decide (a.1 ≠ n') && decide (a.1 = n))) =
      (fun p : String × String => decide (p.1 = n)) from
    tag_predicate_absorb n n' h]

theorem getTag_setTag_ne (n n' v : String) (r : Row) (h : n ≠ n') :
    getTag n (setTag n' v r) = getTag n r := by
  simp only [getTag, setTag]
  rw [List.find?_append, find_filter_ne n n' h]
  cases hfind : r.tags.find? (fun p => decide (p.1 = n)) with
  | none =>
    have : ¬ (n' = n) := fun hc => h hc.symm
    simp [List.find?, this]
  | some p => simp

theorem mae_setTag (n v : String) (r : Row) : (setTag n v r).mae = r.mae := rfl

theorem countP_filter_ne_self (n : String) (l : List (String × String)) :
    (l.filter (fun p => p.1 ≠ n)).countP (fun p => p.1 = n) = 0 := by
  rw [List.countP_eq_zero]
  intro p hp
  have := List.of_mem_filter hp
  simpa using this

theorem countTag_setTag_same (n v : String) (r : Row) :
    countTag n (setTag n v r) = 1 := by
  simp only [countTag, setTag]
  rw [List.countP_append, countP_filter_ne_self]
  simp [List.countP_cons]

theorem countP_filter_ne (n n' : String) (h : n ≠ n')
    (l : List (String × String)) :
    (l.filter (fun p => p.1 ≠ n')).countP (fun p => p.1 = n) =
      l.countP (fun p => p.1 = n) := by
  rw [List.countP_filter]
  rw [show (fun a : String × String =>
      (decide (a.1 = n) && decide (a.1 ≠ n'))) =
      (fun p : String × String => decide (p.1 = n)) from ?_]
  funext p
  by_cases hp : p.1 = n
  · simp [hp, h]
  · simp [hp]

theorem countTag_setTag_ne (n n' v : String) (r : Row) (h : n ≠ n') :
    countTag n (setTag n' v r) = countTag n r := by
  simp only [countTag, setTag]
  rw [List.countP_append, countP_filter_ne n n' h]
  have : ¬ (n' = n) := fun hc => h hc.symm
  simp [List.countP_cons, this]

theorem getTag_tagTable (n v : String) (t : Table) (r : Row)
    (hr : r ∈ tagTable n v t) : getTag n r = some v := by
  simp only [tagTable, List.mem_map] at hr
  obtain ⟨r0, _, rfl⟩ := hr
  exact getTag_setTag_same n v r0

theorem colMean_tagTable (n v : String) (t : Table) :
    colMean (tagTable n v t) = colMean t := by
  have hcomp : Row.mae ∘ setTag n v = Row.mae := funext (fun r => rfl)
  simp [colMean, tagTable, List.map_map, hcomp]

theorem rowsWithTag_append (n v : String) (t1 t2 : Table) :
    rowsWithTag n v (t1 ++ t2) =
      rowsWithTag n v t1 ++ rowsWithTag n v t2 := by
  simp [rowsWithTag, List.filter_append]

theorem rowsWithTag_tagTable_same (n v : String) (t : Table) :
    rowsWithTag n v (tagTable n v t) = tagTable n v t := by
  rw [rowsWithTag, List.filter_eq_self]
  intro r hr
  simp [getTag_tagTable n v t r hr]

theorem rowsWithTag_tagTable_ne (n v w : String) (t : Table) (h : v ≠ w) :
    rowsWithTag n v (tagTable n w t) = [] := by
  rw [rowsWithTag, List.filter_eq_nil_iff]
  intro r hr
  have hw := getTag_tagTable n w t r hr
  simp [hw]
  exact fun hc => h hc.symm

/-! ## Lemmas about the best-filter selection -/

theorem minKeyAux_mem (l : List (String × ℚ)) :
    ∀ (k : String) (v : ℚ),
      minKeyAux k v l = k ∨ ∃ p ∈ l, minKeyAux k v l = p.1 := by
  induction l with
  | nil => intro k v; exact Or.inl rfl
  | cons a rest ih =>
    intro k v
    simp only [minKeyAux]
    by_cases ha : a.2 < v
    · rw [if_pos ha]
      rcases ih a.1 a.2 with h | ⟨p, hp, hq⟩
      · exact Or.inr ⟨a, List.mem_cons_self a rest, h⟩
      · exact Or.inr ⟨p, List.mem_cons_of_mem a hp, hq⟩
    · rw [if_neg ha]
      rcases ih k v with h | ⟨p, hp, hq⟩
      · exact Or.inl h
      · exact Or.inr ⟨p, List.mem_cons_of_mem a hp, hq⟩

theorem minKeyAux_no_improve (l : List (String × ℚ)) :
    ∀ (k : String) (v : ℚ), (∀ p ∈ l, ¬ p.2 < v) → minKeyAux k v l = k := by
  induction l with
  | nil => intro k v _; rfl
  | cons a rest ih =>
    intro k v h
    simp only [minKeyAux]
    rw [if_neg (h a (List.mem_cons_self a rest))]
    exact ih k v (fun p hp => h p (List.mem_cons_of_mem a hp))

theorem minKeyAux_first (k : String) (v : ℚ) (l2 : List (String × ℚ))
    (hl2 : ∀ p ∈ l2, v ≤ p.2) :
    ∀ (l1 : List (String × ℚ)) (k0 : String) (v0 : ℚ), v < v0 →
      (∀ p ∈ l1, v < p.2) →
      minKeyAux k0 v0 (l1 ++ (k, v) :: l2) = k := by
  intro l1
  induction l1 with
  | nil =>
    intro k0 v0 hv0 _
    simp only [List.nil_append, minKeyAux]
    rw [if_pos hv0]
    exact minKeyAux_no_improve l2 k v (fun p hp => not_lt.mpr (hl2 p hp))
  | cons a rest ih =>
    intro k0 v0 hv0 h1
    simp only [List.cons_append, minKeyAux]
    by_cases ha : a.2 < v0
    · rw [if_pos ha]
      exact ih a.1 a.2 (h1 a (List.mem_cons_self a rest))
        (fun p hp => h1 p (List.mem_cons_of_mem a hp))
    · rw [if_neg ha]
      exact ih k0 v0 hv0 (fun p hp => h1 p (List.mem_cons_of_mem a hp))

theorem minKey_mem (l : List (String × ℚ)) (k : String)
    (h : minKey l = some k) : ∃ p ∈ l, p.1 = k := by
  cases l with
  | nil => cases h
  | cons a rest =>
    simp only [minKey, Option.some.injEq] at h
    rcases minKeyAux_mem rest a.1 a.2 with h2 | ⟨p, hp, hq⟩
    · exact ⟨a, List.mem_cons_self a rest, h2.symm.trans h |>.symm ▸ by
        rw [← h, h2]⟩
    · exact ⟨p, List.mem_cons_of_mem a hp, by rw [← h, hq]⟩

/-! ## Lemmas about the aggregation loops -/

theorem meansRows_mem (fs : FS) (basis : String) (L : List String)
    (k : String) (w : ℚ) (h : (k, w) ∈ meansRows fs basis L) :
    k ∈ L ∧ ∃ df, fs (garnoldiPath basis k) = some df ∧ w = colMean df := by
  induction L with
  | nil => cases h
  | cons f rest ih =>
    simp only [meansRows] at h
    cases hf : fs (garnoldiPath basis f) with
    | some df =>
      rw [hf] at h
      rcases List.mem_append.mp h with h1 | h2
      · have heq := List.mem_singleton.mp h1
        have hk : k = f := congrArg Prod.fst heq
        have hw : w = colMean df := congrArg Prod.snd heq
        subst hk
        exact ⟨List.mem_cons_self k rest, df, hf, hw⟩
      · obtain ⟨hmem, hdf⟩ := ih h2
        exact ⟨List.mem_cons_of_mem f hmem, hdf⟩
    | none =>
      rw [hf] at h
      simp only [List.nil_append] at h
      obtain ⟨hmem, hdf⟩ := ih h
      exact ⟨List.mem_cons_of_mem f hmem, hdf⟩

theorem meansRows_keys (fs : FS) (basis : String) (L : List String)
    (k : String) (hk : ∃ p ∈ meansRows fs basis L, p.1 = k) :
    (fs (garnoldiPath basis k)).isSome := by
  obtain ⟨⟨k', w⟩, hp, hk'⟩ := hk
  cases hk'
  obtain ⟨_, df, hdf, _⟩ := meansRows_mem fs basis L k' w hp
  rw [hdf]; rfl

theorem meansRows_lookup (fs : FS) (basis : String) (L : List String)
    (k : String) (df : Table) (hnd : L.Nodup) (hmem : k ∈ L)
    (hread : fs (garnoldiPath basis k) = some df) :
    (meansRows fs basis L).lookup k = some (colMean df) := by
  induction L with
  | nil => cases hmem
  | cons f rest ih =>
    simp only [meansRows]
    rcases List.mem_cons.mp hmem with heq | htail
    · cases heq
      rw [hread]
      simp [List.lookup]
    · have hf : f ≠ k := fun hc => by
        rw [hc] at hnd
        exact (List.nodup_cons.mp hnd).1 htail
      have ihr := ih (List.nodup_cons.mp hnd).2 htail
      cases hff : fs (garnoldiPath basis f) with
      | some dff =>
        have hkf : (k == f) = false :=
          beq_eq_false_iff_ne.mpr (fun hc => hf hc.symm)
        simp only [List.singleton_append, List.lookup, hkf, List.nil_append]
        exact ihr
      | none => simpa using ihr

theorem plot1Rows_tag (fs : FS) (basis : String) (L : List String) :
    ∀ r ∈ plot1Rows fs basis L, ∃ f ∈ L, getTag "Filter" r = some f ∧
      (fs (garnoldiPath basis f)).isSome := by
  induction L with
  | nil => intro r hr; cases hr
  | cons f rest ih =>
    intro r hr
    simp only [plot1Rows] at hr
    rcases List.mem_append.mp hr with h1 | h2
    · cases hf : fs (garnoldiPath basis f) with
      | some df =>
        rw [hf] at h1
        simp only [tagTable] at h1
        obtain ⟨r1, hr1, rfl⟩ := List.mem_map.mp h1
        obtain ⟨r0, hr0, rfl⟩ := List.mem_map.mp hr1
        refine ⟨f, List.mem_cons_self f rest, ?_, by rw [hf]; rfl⟩
        rw [getTag_setTag_ne "Filter" "Basis" _ _ (by decide)]
        exact getTag_setTag_same "Filter" f r0
      | none => rw [hf] at h1; cases h1
    · obtain ⟨f', hf', htag, hsome⟩ := ih r h2
      exact ⟨f', List.mem_cons_of_mem f hf', htag, hsome⟩

theorem plot1Rows_skip (fs : FS) (basis : String) (filt : String)
    (hmiss : fs (garnoldiPath basis filt) = none) (L : List String) :
    plot1Rows fs basis L =
      plot1Rows fs basis (L.filter (fun f => f ≠ filt)) := by
  induction L with
  | nil => rfl
  | cons f rest ih =>
    by_cases hf : f = filt
    · cases hf
      simp only [plot1Rows, hmiss, List.filter_cons]
      rw [if_neg (by simp)]
      simpa using ih
    · simp only [plot1Rows, List.filter_cons]
      rw [if_pos (by simpa using hf)]
      simp only [plot1Rows]
      rw [ih]

theorem modelRows_tag (fs : FS) (basis : String) (L : List String) :
    ∀ r ∈ modelRows fs basis L, ∃ m ∈ L, getTag "Model" r = some m ∧
      (fs (modelPath basis m)).isSome := by
  induction L with
  | nil => intro r hr; cases hr
  | cons m rest ih =>
    intro r hr
    simp only [modelRows] at hr
    rcases List.mem_append.mp hr with h1 | h2
    · cases hm : fs (modelPath basis m) with
      | some df =>
        rw [hm] at h1
        exact ⟨m, List.mem_cons_self m rest, getTag_tagTable _ _ _ _ h1,
          by rw [hm]; rfl⟩
      | none => rw [hm] at h1; cases h1
    · obtain ⟨m', hm', htag, hsome⟩ := ih r h2
      exact ⟨m', List.mem_cons_of_mem m hm', htag, hsome⟩

theorem plot2GarnRows_tag (fs : FS) (basis : String) (L : List String) :
    ∀ r ∈ plot2GarnRows fs basis L, ∃ f ∈ L,
      getTag "Model" r = some ("Garnoldi-" ++ f) := by
  induction L with
  | nil => intro r hr; cases hr
  | cons f rest ih =>
    intro r hr
    simp only [plot2GarnRows] at hr
    rcases List.mem_append.mp hr with h1 | h2
    · cases hf : fs (garnoldiPath basis f) with
      | some df =>
        rw [hf] at h1
        exact ⟨f, List.mem_cons_self f rest, getTag_tagTable _ _ _ _ h1⟩
      | none => rw [hf] at h1; cases h1
    · obtain ⟨f', hf', htag⟩ := ih r h2
      exact ⟨f', List.mem_cons_of_mem f hf', htag⟩

theorem countTag_tagTable (n v : String) (t : Table) :
    ∀ r ∈ tagTable n v t, countTag n r = 1 := by
  intro r hr
  simp only [tagTable] at hr
  obtain ⟨r0, _, rfl⟩ := List.mem_map.mp hr
  exact countTag_setTag_same n v r0

theorem plot1Rows_counts (fs : FS) (basis : String) (L : List String) :
    ∀ r ∈ plot1Rows fs basis L,
      countTag "Filter" r = 1 ∧ countTag "Basis" r = 1 := by
  induction L with
  | nil => intro r hr; cases hr
  | cons f rest ih =>
    intro r hr
    simp only [plot1Rows] at hr
    rcases List.mem_append.mp hr with h1 | h2
    · cases hf : fs (garnoldiPath basis f) with
      | some df =>
        rw [hf] at h1
        simp only [tagTable] at h1
        obtain ⟨r1, hr1, rfl⟩ := List.mem_map.mp h1
        obtain ⟨r0, hr0, rfl⟩ := List.mem_map.mp hr1
        constructor
        · rw [countTag_setTag_ne "Filter" "Basis" _ _ (by decide)]
          exact countTag_setTag_same "Filter" f r0
        · exact countTag_setTag_same "Basis" (displayName basis) _
      | none => rw [hf] at h1; cases h1
    · exact ih r h2

theorem plot2GarnRows_counts (fs : FS) (basis : String) (L : List String) :
    ∀ r ∈ plot2GarnRows fs basis L, countTag "Model" r = 1 := by
  induction L with
  | nil => intro r hr; cases hr
  | cons f rest ih =>
    intro r hr
    simp only [plot2GarnRows] at hr
    rcases List.mem_append.mp hr with h1 | h2
    · cases hf : fs (garnoldiPath basis f) with
      | some df => rw [hf] at h1; exact countTag_tagTable _ _ _ r h1
      | none => rw [hf] at h1; cases h1
    · exact ih r h2

theorem modelRows_counts (fs : FS) (basis : String) (L : List String) :
    ∀ r ∈ modelRows fs basis L, countTag "Model" r = 1 := by
  induction L with
  | nil => intro r hr; cases hr
  | cons m rest ih =>
    intro r hr
    simp only [modelRows] at hr
    rcases List.mem_append.mp hr with h1 | h2
    · cases hm : fs (modelPath basis m) with
      | some df => rw [hm] at h1; exact countTag_tagTable _ _ _ r h1
      | none => rw [hm] at h1; cases h1
    · exact ih r h2

theorem rowsWithTag_modelRows (fs : FS) (basis : String) (v : String)
    (L : List String) (hv : ∀ m ∈ L, v ≠ m) :
    rowsWithTag "Model" v (modelRows fs basis L) = [] := by
  induction L with
  | nil => rfl
  | cons m rest ih =>
    simp only [modelRows, rowsWithTag_append]
    rw [ih (fun m' hm' => hv m' (List.mem_cons_of_mem m hm'))]
    cases hm : fs (modelPath basis m) with
    | some df =>
      rw [rowsWithTag_tagTable_ne "Model" v m df
        (hv m (List.mem_cons_self m rest))]
      rfl
    | none => rfl

theorem passOutputs_skip (out : FS → String → Option (String × Table))
    (fs : FS) (b : String) (hnone : out fs b = none) (L : List String) :
    passOutputs out fs L =
      passOutputs out fs (L.filter (fun x => x ≠ b)) := by
  induction L with
  | nil => rfl
  | cons x rest ih =>
    by_cases hx : x = b
    · cases hx
      simp only [passOutputs, hnone, List.filter_cons]
      rw [if_neg (by simp)]
      simpa using ih
    · simp only [passOutputs, List.filter_cons]
      rw [if_pos (by simpa using hx)]
      simp only [passOutputs]
      rw [ih]

theorem passOutputs_paths (out : FS → String → Option (String × Table))
    (fs : FS) (pf : String → String)
    (hp : ∀ b o, out fs b = some o → o.1 = pf b) :
    ∀ L : List String,
      ((passOutputs out fs L).map Prod.fst).Sublist (L.map pf) := by
  intro L
  induction L with
  | nil => exact List.Sublist.refl []
  | cons b rest ih =>
    simp only [passOutputs, List.map_cons]
    cases ho : out fs b with
    | some o =>
      show (([o] ++ passOutputs out fs rest).map Prod.fst).Sublist
        (pf b :: rest.map pf)
      rw [List.map_append, List.map_singleton, hp b o ho]
      exact List.Sublist.cons₂ (pf b) ih
    | none =>
      show ((([] : List (String × Table)) ++
        passOutputs out fs rest).map Prod.fst).Sublist (pf b :: rest.map pf)
      simpa using List.Sublist.cons (pf b) ih

/-! ## Concrete filesystems for witnesses -/

/-- A CSV row with no extra columns. -/
def sampleRow (q : ℚ) : Row := { mae := q, tags := [] }

/-- A filesystem holding exactly one Garnoldi file: Chebyshev's `g0`. -/
def fsOne : FS := fun p =>
  if p = garnoldiPath "Chebyshev" "g0" then some [sampleRow 3] else none

/-- A filesystem holding all four Chebyshev Garnoldi files. -/
def fsFour : FS := fun p =>
  if p = garnoldiPath "Chebyshev" "g0" then some [sampleRow 1] else
  if p = garnoldiPath "Chebyshev" "g1" then some [sampleRow 2, sampleRow 5] else
  if p = garnoldiPath "Chebyshev" "g2" then some [sampleRow 3] else
  if p = garnoldiPath "Chebyshev" "g3" then some [sampleRow 4] else none

/-- A filesystem holding Chebyshev's `g0`, `g2` and `g3` but not `g1`. -/
def fsNoG1 : FS := fun p =>
  if p = garnoldiPath "Chebyshev" "g0" then some [sampleRow 1] else
  if p = garnoldiPath "Chebyshev" "g2" then some [sampleRow 3] else
  if p = garnoldiPath "Chebyshev" "g3" then some [sampleRow 4] else none

/-- The empty filesystem. -/
def fsEmpty : FS := fun _ => none

/-! ## The claims -/

/-- C1 counterexample: on a filesystem where Chebyshev's Plot 2 table is
non-empty, the Plot 2 figure path is
`figures/chebyshev/all_models_comparison_chebyshev_cleaned.png` — the
`_cleaned` suffix follows the basis name — and not the claimed
`figures/chebyshev/all_models_comparison_cleaned_chebyshev.png`. -/
theorem plot2_path_counterexample :
    (plot2Out fsOne "Chebyshev").map Prod.fst =
      some "figures/chebyshev/all_models_comparison_chebyshev_cleaned.png" ∧
    (plot2Out fsOne "Chebyshev").map Prod.fst ≠
      some "figures/chebyshev/all_models_comparison_cleaned_chebyshev.png" := by
  constructor
  · decide
  · decide

/-- C1 (amended): for every basis whose Plot 2 combined table is non-empty
the Plot 2 figure is written to
`figures/<basis_lower>/all_models_comparison_<basis_lower>_cleaned.png`
(the lowercased basis name comes before the `_cleaned` suffix), and the
Plot 1 and Plot 3 figures go to
`figures/<basis_lower>/garnoldi_filter_boxplot_<basis_lower>.png` and
`figures/<basis_lower>/best_garnoldi_vs_models_<basis_lower>.png`. -/
theorem figure_output_paths (fs : FS) (basis : String)
    (h1 : plot1Table fs basis ≠ [])
    (h2 : plot2Table fs basis ≠ []) :
    plot1Out fs basis = some ("figures/" ++ lowerStr basis ++
      "/garnoldi_filter_boxplot_" ++ lowerStr basis ++ ".png",
      plot1Table fs basis) ∧
    plot2Out fs basis = some ("figures/" ++ lowerStr basis ++
      "/all_models_comparison_" ++ lowerStr basis ++ "_cleaned.png",
      plot2Table fs basis) ∧
    (∀ t, plot3Step fs basis = Plot3Step.built t → t ≠ [] →
      plot3Out fs basis = some ("figures/" ++ lowerStr basis ++
        "/best_garnoldi_vs_models_" ++ lowerStr basis ++ ".png", t)) := by
  refine ⟨?_, ?_, ?_⟩
  · simp only [plot1Out, plot1Path]
    rw [if_neg (by simpa [List.isEmpty_iff] using h1)]
  · simp only [plot2Out, plot2Path]
    rw [if_neg (by simpa [List.isEmpty_iff] using h2)]
  · intro t ht hne
    simp only [plot3Out, plot3Path, ht]
    rw [if_neg (by simpa [List.isEmpty_iff] using hne)]

/-- C1 witness: on `fsOne` the Plot 1 and Plot 2 tables for Chebyshev are
non-empty and the Plot 2 figure is written at the amended path. -/
theorem figure_output_paths_witness :
    plot1Table fsOne "Chebyshev" ≠ [] ∧
    plot2Out fsOne "Chebyshev" = some ("figures/" ++ lowerStr "Chebyshev" ++
      "/all_models_comparison_" ++ lowerStr "Chebyshev" ++ "_cleaned.png",
      plot2Table fsOne "Chebyshev") :=
  ⟨by decide,
    (figure_output_paths fsOne "Chebyshev" (by decide) (by decide)).2.1⟩

/-- C2: `min(filter_mae_means, key=filter_mae_means.get)` returns the key
of the first entry holding the minimum value: if every earlier entry is
strictly larger and every later entry is no smaller, that entry's key is
selected. -/
theorem best_filter_first_min (l1 l2 : List (String × ℚ)) (k : String)
    (v : ℚ) (h1 : ∀ p ∈ l1, v < p.2) (h2 : ∀ p ∈ l2, v ≤ p.2) :
    minKey (l1 ++ (k, v) :: l2) = some k := by
  cases l1 with
  | nil =>
    simp only [List.nil_append, minKey, Option.some.injEq]
    exact minKeyAux_no_improve l2 k v (fun p hp => not_lt.mpr (h2 p hp))
  | cons a rest =>
    obtain ⟨ka, va⟩ := a
    simp only [List.cons_append, minKey, Option.some.injEq]
    exact minKeyAux_first k v l2 h2 rest ka va
      (h1 (ka, va) (List.mem_cons_self (ka, va) rest))
      (fun p hp => h1 p (List.mem_cons_of_mem (ka, va) hp))

unseal Rat.mul Rat.add Rat.sub Rat.inv in
/-- C2 witness: on the mean map {g0: 2.1, g1: 1.4, g2: 1.9, g3: 1.4}
(insertion order g0, g1, g2, g3) the selection is "g1": the first of the
two tied minima. -/
theorem best_filter_first_min_witness :
    minKey [("g0", 21/10), ("g1", 14/10), ("g2", 19/10), ("g3", 14/10)] =
      some "g1" :=
  best_filter_first_min [("g0", 21/10)] [("g2", 19/10), ("g3", 14/10)]
    "g1" (14/10) (by decide) (by decide)

unseal Rat.mul Rat.add Rat.sub Rat.inv in
/-- C3: `format_val` maps values `v ≥ 1000` to the two-decimal rendering
of `v/1000` with a "K" suffix and smaller values to the plain two-decimal
rendering; 850 formats as "850.00", 1250 as "1.25K", and the Plot 1/3
annotation renders 3.456 as "3.46". -/
theorem format_val_spec :
    (∀ v : ℚ, 1000 ≤ v → format_val v = fmt2 (v / 1000) ++ "K") ∧
    (∀ v : ℚ, v < 1000 → format_val v = fmt2 v) ∧
    format_val 850 = "850.00" ∧
    format_val 1250 = "1.25K" ∧
    (∀ v : ℚ, annotPlain v = fmt2 v) ∧
    annotPlain (3456/1000) = "3.46" := by
  refine ⟨?_, ?_, ?_, ?_, fun v => rfl, ?_⟩
  · intro v hv
    rw [format_val, if_pos hv]
  · intro v hv
    rw [format_val, if_neg (not_le.mpr hv)]
  · decide
  · decide
  · decide

unseal Rat.mul Rat.add Rat.sub Rat.inv in
/-- C3 witness: the two formatting branches applied at 1250 and 850. -/
theorem format_val_spec_witness :
    ((1000 : ℚ) ≤ 1250 ∧ format_val 1250 = fmt2 ((1250 : ℚ) / 1000) ++ "K") ∧
    ((850 : ℚ) < 1000 ∧ format_val 850 = fmt2 850) :=
  ⟨⟨by decide, format_val_spec.1 1250 (by decide)⟩,
    ⟨by decide, format_val_spec.2.1 850 (by decide)⟩⟩

/-- C9: whenever Plot 3's mean map selects a best filter, that filter's
file exists on the (unchanged) filesystem, so the unguarded second
`pd.read_csv(best_path)` cannot hit a missing file. -/
theorem plot3_second_read_safe (fs : FS) (basis : String) (best : String)
    (h : minKey (filter_mae_means fs basis) = some best) :
    (fs (garnoldiPath basis best)).isSome = true ∧
    plot3Step fs basis ≠ Plot3Step.readError := by
  have hmem := minKey_mem _ _ h
  have hsome : (fs (garnoldiPath basis best)).isSome = true :=
    meansRows_keys fs basis filters best hmem
  refine ⟨hsome, ?_⟩
  simp only [plot3Step, h]
  cases hread : fs (garnoldiPath basis best) with
  | some df => exact fun hc => Plot3Step.noConfusion hc
  | none => rw [hread] at hsome; cases hsome

/-- C9 witness: on `fsOne` the best filter for Chebyshev is `g0` and its
file is present. -/
theorem plot3_second_read_safe_witness :
    minKey (filter_mae_means fsOne "Chebyshev") = some "g0" ∧
    (fsOne (garnoldiPath "Chebyshev" "g0")).isSome = true :=
  ⟨by decide,
    (plot3_second_read_safe fsOne "Chebyshev" "g0" (by decide)).1⟩

/-- C4: a category whose resolved file does not exist is silently skipped:
the combined table equals the one built over the remaining categories, no
row carries the missing filter's tag (so it yields no x-axis category),
and likewise no Plot 2 row carries a missing model's tag. -/
theorem missing_file_skipped (fs : FS) (basis filt : String)
    (hmiss : fs (garnoldiPath basis filt) = none) :
    plot1Table fs basis =
      plot1Rows fs basis (filters.filter (fun f => f ≠ filt)) ∧
    (∀ r ∈ plot1Table fs basis, getTag "Filter" r ≠ some filt) ∧
    (∀ m ∈ models, fs (modelPath basis m) = none →
      ∀ r ∈ plot2Table fs basis, getTag "Model" r ≠ some m) := by
  refine ⟨plot1Rows_skip fs basis filt hmiss filters, ?_, ?_⟩
  · intro r hr hc
    obtain ⟨f, hfmem, htag, hsome⟩ := plot1Rows_tag fs basis filters r hr
    rw [htag] at hc
    have hf : f = filt := Option.some.inj hc
    rw [hf, hmiss] at hsome
    cases hsome
  · intro m hm hmnone r hr hc
    rcases List.mem_append.mp hr with h1 | h2
    · obtain ⟨f, hfmem, htag⟩ := plot2GarnRows_tag fs basis filters r h1
      rw [htag] at hc
      have heq : "Garnoldi-" ++ f = m := Option.some.inj hc
      have hne : m ≠ "Garnoldi-" ++ f := by
        fin_cases hfmem <;> fin_cases hm <;> decide
      exact hne heq.symm
    · obtain ⟨m', hm', htag, hsome⟩ := modelRows_tag fs basis models r h2
      rw [htag] at hc
      have : m' = m := Option.some.inj hc
      rw [this, hmnone] at hsome
      cases hsome

/-- C4 witness: Chebyshev's `g1` file is missing in `fsNoG1`, so Plot 1's
table equals the one built over the other three filters. -/
theorem missing_file_skipped_witness :
    fsNoG1 (garnoldiPath "Chebyshev" "g1") = none ∧
    plot1Table fsNoG1 "Chebyshev" =
      plot1Rows fsNoG1 "Chebyshev" (filters.filter (fun f => f ≠ "g1")) :=
  ⟨by decide,
    (missing_file_skipped fsNoG1 "Chebyshev" "g1" (by decide)).1⟩

/-- C5: with all four filter files present, Plot 1's combined table is the
concatenation of the four tagged files in enumeration order, its row count
is the sum of the four files' row counts, and every row of a tagged file
segment carries the `Filter` tag of the file it came from. -/
theorem plot1_all_files (fs : FS) (basis : String) (t0 t1 t2 t3 : Table)
    (h0 : fs (garnoldiPath basis "g0") = some t0)
    (h1 : fs (garnoldiPath basis "g1") = some t1)
    (h2 : fs (garnoldiPath basis "g2") = some t2)
    (h3 : fs (garnoldiPath basis "g3") = some t3) :
    plot1Table fs basis =
      tagTable "Basis" (displayName basis) (tagTable "Filter" "g0" t0) ++
      tagTable "Basis" (displayName basis) (tagTable "Filter" "g1" t1) ++
      tagTable "Basis" (displayName basis) (tagTable "Filter" "g2" t2) ++
      tagTable "Basis" (displayName basis) (tagTable "Filter" "g3" t3) ∧
    (plot1Table fs basis).length =
      t0.length + t1.length + t2.length + t3.length ∧
    (∀ f : String, ∀ t : Table,
      ∀ r ∈ tagTable "Basis" (displayName basis) (tagTable "Filter" f t),
        getTag "Filter" r = some f) := by
  have htab : plot1Table fs basis =
      tagTable "Basis" (displayName basis) (tagTable "Filter" "g0" t0) ++
      tagTable "Basis" (displayName basis) (tagTable "Filter" "g1" t1) ++
      tagTable "Basis" (displayName basis) (tagTable "Filter" "g2" t2) ++
      tagTable "Basis" (displayName basis) (tagTable "Filter" "g3" t3) := by
    simp [plot1Table, filters, plot1Rows, h0, h1, h2, h3, List.append_assoc]
  refine ⟨htab, ?_, ?_⟩
  · rw [htab]
    simp [tagTable]
    omega
  · intro f t r hr
    simp only [tagTable] at hr
    obtain ⟨r1, hr1, rfl⟩ := List.mem_map.mp hr
    obtain ⟨r0, hr0, rfl⟩ := List.mem_map.mp hr1
    rw [getTag_setTag_ne "Filter" "Basis" _ _ (by decide)]
    exact getTag_setTag_same "Filter" f r0

/-- C5 witness: on `fsFour` (files of 1, 2, 1 and 1 rows) Plot 1's table
for Chebyshev has 5 rows. -/
theorem plot1_all_files_witness :
    fsFour (garnoldiPath "Chebyshev" "g1") = some [sampleRow 2, sampleRow 5] ∧
    (plot1Table fsFour "Chebyshev").length = 5 :=
  ⟨by decide,
    (plot1_all_files fsFour "Chebyshev" [sampleRow 1]
      [sampleRow 2, sampleRow 5] [sampleRow 3] [sampleRow 4]
      (by decide) (by decide) (by decide) (by decide)).2.1⟩

/-- C6: a basis with zero Garnoldi filter files gets an empty mean map, so
Plot 3 takes the skip branch and writes no figure for it, while the Plot 3
outputs of the script are exactly those of the other bases, and the Plot 1
and Plot 2 passes are unchanged. -/
theorem plot3_zero_filters_skip (fs : FS) (b : String)
    (h : ∀ f ∈ filters, fs (garnoldiPath b f) = none) :
    filter_mae_means fs b = [] ∧
    plot3Step fs b = Plot3Step.skipped ∧
    plot3Out fs b = none ∧
    run fs = passOutputs plot1Out fs active_bases ++
      passOutputs plot2Out fs active_bases ++
      passOutputs plot3Out fs (active_bases.filter (fun x => x ≠ b)) := by
  have hmeans : filter_mae_means fs b = [] := by
    simp [filter_mae_means, filters, meansRows, h "g0" (by decide),
      h "g1" (by decide), h "g2" (by decide), h "g3" (by decide)]
  have hstep : plot3Step fs b = Plot3Step.skipped := by
    simp [plot3Step, hmeans, minKey]
  have hout : plot3Out fs b = none := by
    simp [plot3Out, hstep]
  refine ⟨hmeans, hstep, hout, ?_⟩
  rw [run, passOutputs_skip plot3Out fs b hout active_bases]

/-- C6 witness: on the empty filesystem Chebyshev has no filter files, its
Plot 3 output is `none`, and the run consists of the other bases' outputs. -/
theorem plot3_zero_filters_skip_witness :
    filter_mae_means fsEmpty "Chebyshev" = [] ∧
    plot3Out fsEmpty "Chebyshev" = none :=
  ⟨(plot3_zero_filters_skip fsEmpty "Chebyshev" (fun _ _ => rfl)).1,
    (plot3_zero_filters_skip fsEmpty "Chebyshev" (fun _ _ => rfl)).2.2.1⟩

/-- C7: every row of Plot 1's combined table carries exactly one `Filter`
tag and exactly one `Basis` tag, and every row of Plot 2's and Plot 3's
combined tables carries exactly one `Model` tag. -/
theorem rows_single_tag (fs : FS) (basis : String) :
    (∀ r ∈ plot1Table fs basis,
      countTag "Filter" r = 1 ∧ countTag "Basis" r = 1) ∧
    (∀ r ∈ plot2Table fs basis, countTag "Model" r = 1) ∧
    (∀ t, plot3Step fs basis = Plot3Step.built t →
      ∀ r ∈ t, countTag "Model" r = 1) := by
  refine ⟨plot1Rows_counts fs basis filters, ?_, ?_⟩
  · intro r hr
    rcases List.mem_append.mp hr with h1 | h2
    · exact plot2GarnRows_counts fs basis filters r h1
    · exact modelRows_counts fs basis models r h2
  · intro t ht
    simp only [plot3Step] at ht
    cases hmk : minKey (filter_mae_means fs basis) with
    | none => rw [hmk] at ht; cases ht
    | some best =>
      rw [hmk] at ht
      have ht2 : (match fs (garnoldiPath basis best) with
          | none => Plot3Step.readError
          | some df_best => Plot3Step.built
              (tagTable "Model" ("Garnoldi-" ++ best) df_best ++
                modelRows fs basis models)) = Plot3Step.built t := ht
      cases hread : fs (garnoldiPath basis best) with
      | none => rw [hread] at ht2; cases ht2
      | some df =>
        rw [hread] at ht2
        have htt := Plot3Step.built.inj ht2
        subst htt
        intro r hr
        rcases List.mem_append.mp hr with h1 | h2
        · exact countTag_tagTable _ _ _ r h1
        · exact modelRows_counts fs basis models r h2

/-- C7 witness: the single Plot 1 row on `fsOne` carries exactly one
`Filter` tag. -/
theorem rows_single_tag_witness :
    (setTag "Basis" "Chebyshev" (setTag "Filter" "g0" (sampleRow 3)) ∈
      plot1Table fsOne "Chebyshev") ∧
    countTag "Filter"
      (setTag "Basis" "Chebyshev" (setTag "Filter" "g0" (sampleRow 3))) = 1 :=
  ⟨by decide,
    ((rows_single_tag fsOne "Chebyshev").1 _ (by decide)).1⟩

/-- C8: the pipeline is deterministic: two runs over equal filesystems
produce equal output lists (same figures at the same paths) and equal mean
maps, and within one run all output paths are pairwise distinct, so a
rerun overwrites rather than duplicates or renames. -/
theorem run_deterministic (fs1 fs2 : FS) (h : ∀ p, fs1 p = fs2 p) :
    run fs1 = run fs2 ∧
    (∀ b, filter_mae_means fs1 b = filter_mae_means fs2 b) ∧
    ((run fs1).map Prod.fst).Nodup := by
  have hfs : fs1 = fs2 := funext h
  subst hfs
  refine ⟨rfl, fun b => rfl, ?_⟩
  have hp1 : ∀ b o, plot1Out fs1 b = some o → o.1 = plot1Path b := by
    intro b o ho
    simp only [plot1Out] at ho
    by_cases he : (plot1Table fs1 b).isEmpty
    · rw [if_pos he] at ho; cases ho
    · rw [if_neg he] at ho
      rw [← Option.some.inj ho]
  have hp2 : ∀ b o, plot2Out fs1 b = some o → o.1 = plot2Path b := by
    intro b o ho
    simp only [plot2Out] at ho
    by_cases he : (plot2Table fs1 b).isEmpty
    · rw [if_pos he] at ho; cases ho
    · rw [if_neg he] at ho
      rw [← Option.some.inj ho]
  have hp3 : ∀ b o, plot3Out fs1 b = some o → o.1 = plot3Path b := by
    intro b o ho
    simp only [plot3Out] at ho
    cases hs : plot3Step fs1 b with
    | built t =>
      rw [hs] at ho
      have ho2 : (if t.isEmpty = true then none
          else some (plot3Path b, t)) = some o := ho
      by_cases he : t.isEmpty = true
      · rw [if_pos he] at ho2; cases ho2
      · rw [if_neg he] at ho2
        rw [← Option.some.inj ho2]
    | skipped => rw [hs] at ho; cases ho
    | readError => rw [hs] at ho; cases ho
  have s1 := passOutputs_paths plot1Out fs1 plot1Path hp1 active_bases
  have s2 := passOutputs_paths plot2Out fs1 plot2Path hp2 active_bases
  have s3 := passOutputs_paths plot3Out fs1 plot3Path hp3 active_bases
  have hsub := ((s1.append s2).append s3)
  have hnodup : ((active_bases.map plot1Path ++ active_bases.map plot2Path)
      ++ active_bases.map plot3Path).Nodup := by decide
  have : (run fs1).map Prod.fst =
      ((passOutputs plot1Out fs1 active_bases).map Prod.fst ++
        (passOutputs plot2Out fs1 active_bases).map Prod.fst) ++
      (passOutputs plot3Out fs1 active_bases).map Prod.fst := by
    simp [run, List.map_append, List.append_assoc]
  rw [this]
  exact List.Nodup.sublist hsub hnodup

/-- C8 witness: the two runs over the empty filesystem coincide and their
output paths are pairwise distinct. -/
theorem run_deterministic_witness :
    run fsEmpty = run fsEmpty ∧ ((run fsEmpty).map Prod.fst).Nodup :=
  ⟨(run_deterministic fsEmpty fsEmpty (fun _ => rfl)).1,
    (run_deterministic fsEmpty fsEmpty (fun _ => rfl)).2.2⟩

/-- C10: the rows of Plot 3's combined table tagged with the best filter's
`Garnoldi-<best>` label are exactly the best filter's file rows, the mean
annotated for that label equals the mean that selected the filter (the
mean map's entry for `best`), and no model tag can collide with a
`Garnoldi-` tag. -/
theorem plot3_best_mean_consistent (fs : FS) (basis best : String)
    (df_best : Table)
    (hbest : minKey (filter_mae_means fs basis) = some best)
    (hread : fs (garnoldiPath basis best) = some df_best) :
    plot3Step fs basis = Plot3Step.built
      (tagTable "Model" ("Garnoldi-" ++ best) df_best ++
        modelRows fs basis models) ∧
    rowsWithTag "Model" ("Garnoldi-" ++ best)
      (tagTable "Model" ("Garnoldi-" ++ best) df_best ++
        modelRows fs basis models) =
      tagTable "Model" ("Garnoldi-" ++ best) df_best ∧
    annotatedMean
      (tagTable "Model" ("Garnoldi-" ++ best) df_best ++
        modelRows fs basis models) ("Garnoldi-" ++ best) = colMean df_best ∧
    (filter_mae_means fs basis).lookup best = some (colMean df_best) ∧
    (∀ m ∈ models, m ≠ "Garnoldi-" ++ best) := by
  have hbfilters : best ∈ filters := by
    obtain ⟨⟨k, w⟩, hp, hk⟩ := minKey_mem _ _ hbest
    cases hk
    exact (meansRows_mem fs basis filters _ _ hp).1
  have hnotmodel : ∀ m ∈ models, m ≠ "Garnoldi-" ++ best := by
    intro m hm
    fin_cases hbfilters <;> fin_cases hm <;> decide
  have hrows : rowsWithTag "Model" ("Garnoldi-" ++ best)
      (tagTable "Model" ("Garnoldi-" ++ best) df_best ++
        modelRows fs basis models) =
      tagTable "Model" ("Garnoldi-" ++ best) df_best := by
    rw [rowsWithTag_append, rowsWithTag_tagTable_same,
      rowsWithTag_modelRows fs basis _ models
        (fun m hm hc => hnotmodel m hm hc.symm), List.append_nil]
  refine ⟨?_, hrows, ?_, ?_, hnotmodel⟩
  · simp only [plot3Step, hbest, hread]
  · rw [annotatedMean, hrows, colMean_tagTable]
  · exact meansRows_lookup fs basis filters best df_best (by decide)
      hbfilters hread

unseal Rat.mul Rat.add Rat.sub Rat.inv in
/-- C10 witness: on `fsFour` the best Chebyshev filter is `g0` (mean 1)
and the mean map's entry for it is its file's column mean. -/
theorem plot3_best_mean_consistent_witness :
    minKey (filter_mae_means fsFour "Chebyshev") = some "g0" ∧
    (filter_mae_means fsFour "Chebyshev").lookup "g0" =
      some (colMean [sampleRow 1]) :=
  ⟨by decide,
    (plot3_best_mean_consistent fsFour "Chebyshev" "g0" [sampleRow 1]
      (by decide) (by decide)).2.2.2.1⟩

end MaeBoxplots
